import Mathlib

/-!
Verification of the client-side interactivity scripts of the
Srinathnulidonda/weather repository (src/static/js/script.js and
src/script.js), shallowly embedded in Lean 4.

The embedding models:
* `debounce` (src/static/js/script.js, lines 391-399), both as a
  trace-level denotation (`debounceInvocations`) and as a timer
  state machine (`DState`, `dStep`);
* `animateCounter` (lines 184-199) as a fuel-indexed loop on rationals;
* `validateForm` (lines 97-121), the submit handler of
  `initContactForm` (lines 42-90) and `showFormResponse`
  (lines 144-153) over a list-of-fields form model;
* the guarded feature initialisers of src/static/js/script.js and the
  unguarded top level of src/script.js over an abstract DOM lookup;
* the anchor-click handler of src/script.js (lines 14-40).
-/

namespace Weather

/-! ## Debounce (src/static/js/script.js lines 391-399)

```js
function debounce(func, delay) {
    let timeoutId;
    return function(...args) {
        clearTimeout(timeoutId);
        timeoutId = setTimeout(() => {
            func.apply(this, args);
        }, delay);
    };
}
```

Trace-level denotation: the wrapped callback is called at the strictly
increasing times of the input list; the timer scheduled by the call at
time `t` fires at `t + delay` unless the next call happens at a time
`t' < t + delay`, in which case `clearTimeout` cancels it while still
pending.  Each firing invokes the underlying `func` with the arguments
of the call that scheduled it. -/

def debounceInvocations {α : Type} (delay : Nat) :
    List (Nat × α) → List (Nat × α)
  | [] => []
  | (t, a) :: rest =>
    match rest with
    | [] => [(t + delay, a)]
    | (t2, _) :: _ =>
      if t2 < t + delay then debounceInvocations delay rest
      else (t + delay, a) :: debounceInvocations delay rest

/-! Timer state machine view of the same closure.  `timers` is the
multiset of outstanding scheduled timers (id, fire time, arguments);
`lastId` is the captured `timeoutId` variable (`none` while it is still
`undefined`); `nextId` feeds fresh timer ids.  `clearTimeout` on an id
that is absent (already fired, or `undefined`) is a no-op, exactly as
in the browser. -/

structure DState (α : Type) where
  timers : List (Nat × Nat × α)
  lastId : Option Nat
  nextId : Nat
  deriving Repr, DecidableEq

def dInit {α : Type} : DState α := ⟨[], none, 0⟩

inductive DEv (α : Type) where
  | call (t : Nat) (a : α)
  | fire (id : Nat)
  deriving Repr, DecidableEq

/-- One step of the wrapped callback's timer state: a `call` runs the
closure body (`clearTimeout timeoutId; timeoutId = setTimeout ... delay`),
a `fire` is the event loop running a due timer, which removes it from
the outstanding set. -/
def dStep {α : Type} (delay : Nat) (s : DState α) : DEv α → DState α
  | .call t a =>
    let cleared := match s.lastId with
      | none => s.timers
      | some id => s.timers.filter (fun x => x.1 ≠ id)
    ⟨cleared ++ [(s.nextId, t + delay, a)], some s.nextId, s.nextId + 1⟩
  | .fire id => ⟨s.timers.filter (fun x => x.1 ≠ id), s.lastId, s.nextId⟩

def dRun {α : Type} (delay : Nat) (evs : List (DEv α)) : DState α :=
  evs.foldl (dStep delay) dInit

/-- Invariant of the debounce closure's state: at most one timer is
outstanding, and when one is, its id is the stored `timeoutId`. -/
def dInv {α : Type} (s : DState α) : Prop :=
  match s.timers with
  | [] => True
  | [x] => s.lastId = some x.1
  | _ :: _ :: _ => False

theorem dInv_init {α : Type} : dInv (dInit (α := α)) := trivial

theorem dInv_step {α : Type} (delay : Nat) (s : DState α) (e : DEv α)
    (h : dInv s) : dInv (dStep delay s e) := by
  cases e with
  | call t a =>
    rcases s with ⟨timers, lastId, nextId⟩
    match timers, lastId, h with
    | [], none, _ => simp [dStep, dInv]
    | [], some id, _ => simp [dStep, dInv]
    | [x], some id, h =>
      simp [dInv] at h
      simp [dStep, dInv, h]
    | x :: y :: rest, _, h => exact absurd h (by simp [dInv])
  | fire id =>
    rcases s with ⟨timers, lastId, nextId⟩
    match timers, h with
    | [], _ => simp [dStep, dInv]
    | [x], h =>
      by_cases hx : x.1 = id
      · simp [dStep, dInv, hx]
      · simpa [dStep, dInv, hx] using h
    | x :: y :: rest, h => exact absurd h (by simp [dInv])

theorem dInv_run {α : Type} (delay : Nat) (evs : List (DEv α)) :
    dInv (dRun delay evs) := by
  suffices h : ∀ s : DState α, dInv s → dInv (evs.foldl (dStep delay) s) by
    exact h dInit dInv_init
  induction evs with
  | nil => intro s hs; exact hs
  | cons e rest ih =>
    intro s hs
    exact ih (dStep delay s e) (dInv_step delay s e hs)

/-- C1: for every nonempty sequence of calls to the wrapped callback in
which consecutive calls are issued strictly less than `delay` apart, the
underlying function is invoked exactly once, with the arguments of the
last call, `delay` after that last call. -/
theorem debounce_rapid_calls_single_invocation {α : Type} (delay : Nat)
    (l : List (Nat × α)) (hne : l ≠ [])
    (hfast : List.Chain' (fun p q : Nat × α => p.1 ≤ q.1 ∧ q.1 < p.1 + delay) l) :
    debounceInvocations delay l = [((l.getLast hne).1 + delay, (l.getLast hne).2)] := by
  induction l with
  | nil => exact absurd rfl hne
  | cons p rest ih =>
    match rest, hfast with
    | [], _ => simp [debounceInvocations]
    | q :: rest2, hfast =>
      rw [List.chain'_cons] at hfast
      have hlt : q.1 < p.1 + delay := hfast.1.2
      have hlast : (p :: q :: rest2).getLast hne
          = (q :: rest2).getLast (by simp) := List.getLast_cons (by simp)
      rw [hlast]
      simpa [debounceInvocations, hlt] using ih (by simp) hfast.2

theorem debounce_rapid_calls_single_invocation_witness :
    debounceInvocations 100 [(0, 1), (50, 2), (90, 3)] = [(190, 3)] := by
  have h := debounce_rapid_calls_single_invocation 100 [(0, 1), (50, 2), (90, 3)]
    (by decide) (by norm_num [List.chain'_cons])
  simpa using h

/-- C4: for every sequence of calls to the wrapped callback in which
consecutive calls are spaced strictly more than `delay` apart, each call
produces its own invocation of the underlying function, with its own
arguments, `delay` after it was issued. -/
theorem debounce_spaced_calls_each_invoked {α : Type} (delay : Nat)
    (l : List (Nat × α))
    (hslow : List.Chain' (fun p q : Nat × α => p.1 + delay < q.1) l) :
    debounceInvocations delay l = l.map (fun p => (p.1 + delay, p.2)) := by
  induction l with
  | nil => rfl
  | cons p rest ih =>
    match rest, hslow with
    | [], _ => simp [debounceInvocations]
    | q :: rest2, hslow =>
      rw [List.chain'_cons] at hslow
      have hgt : ¬ q.1 < p.1 + delay := by omega
      simpa [debounceInvocations, hgt] using ih hslow.2

theorem debounce_spaced_calls_each_invoked_witness :
    debounceInvocations 10 [(0, 1), (11, 2), (30, 3)]
      = [(10, 1), (21, 2), (40, 3)] := by
  have h := debounce_spaced_calls_each_invoked 10 [(0, 1), (11, 2), (30, 3)]
    (by norm_num [List.chain'_cons])
  simpa using h

/-- C6 counterexample: it is not the case that at every point in time
exactly one timer is outstanding per wrapped instance: before the first
call there are zero, and after a scheduled timer fires there are again
zero. -/
theorem debounce_timer_exactly_one_counterexample :
    (dRun (α := Nat) 100 []).timers.length ≠ 1 ∧
    (dRun (α := Nat) 100 [DEv.call 0 5, DEv.fire 0]).timers.length ≠ 1 := by
  decide

/-- C6 amended: at most one scheduled timer is outstanding at any time
per wrapped instance, and each call to the wrapped callback first
cancels any pending scheduled call and then schedules a new one firing
`delay` in the future and carrying that call's (the latest) arguments,
so that immediately after a call exactly one timer is outstanding. -/
theorem debounce_timer_discipline {α : Type} (delay : Nat)
    (evs : List (DEv α)) (t : Nat) (a : α) :
    (dRun delay evs).timers.length ≤ 1 ∧
    ∃ id, (dRun delay (evs ++ [DEv.call t a])).timers = [(id, t + delay, a)] := by
  have hinv := dInv_run delay evs
  constructor
  · rcases hs : (dRun delay evs).timers with _ | ⟨x, _ | ⟨y, rest⟩⟩
    · simp
    · simp
    · exact absurd (by rw [dInv, hs] at hinv; exact hinv) (by simp)
  · refine ⟨(dRun delay evs).nextId, ?_⟩
    have hrun : dRun delay (evs ++ [DEv.call t a])
        = dStep delay (dRun delay evs) (DEv.call t a) := by
      simp [dRun, List.foldl_append]
    rw [hrun]
    rcases hs : (dRun delay evs).timers with _ | ⟨x, _ | ⟨y, rest⟩⟩
    · cases hid : (dRun delay evs).lastId <;> simp [dStep, hs, hid]
    · have hx : (dRun delay evs).lastId = some x.1 := by
        rw [dInv, hs] at hinv; exact hinv
      simp [dStep, hs, hx]
    · exact absurd (by rw [dInv, hs] at hinv; exact hinv) (by simp)

/-! ## Counter animation (src/static/js/script.js lines 184-199)

```js
function animateCounter(counter, target, speed) {
    let count = 0;
    const increment = target / speed;
    const updateCount = () => {
        if (count < target) {
            count += increment;
            counter.innerText = Math.ceil(count);
            requestAnimationFrame(updateCount);
        } else {
            counter.innerText = target;
        }
    };
    requestAnimationFrame(updateCount);
}
```

`runCounter target increment count fuel` runs `updateCount` for at most
`fuel` animation frames and returns the final value written to
`counter.innerText`, or `none` if the loop has not finished within
`fuel` frames (while the loop runs, the intermediate frames display
`Math.ceil(count)`, but the claim is about the value on termination).
`target` comes from `parseInt(...)` of the `data-count` attribute, so
it is an integer; `increment` is kept an arbitrary rational to cover
any rounding of the floating-point quotient `target / speed`. -/

def runCounter (target increment : ℚ) : ℚ → Nat → Option ℚ
  | _, 0 => none
  | count, fuel + 1 =>
    if count < target then runCounter target increment (count + increment) fuel
    else some target

theorem runCounter_of_reach (target increment : ℚ) :
    ∀ (n : Nat) (count : ℚ), target ≤ count + n * increment →
      runCounter target increment count (n + 1) = some target := by
  intro n
  induction n with
  | zero =>
    intro count h
    simp only [Nat.cast_zero, zero_mul, add_zero] at h
    simp [runCounter, not_lt.mpr h]
  | succ m ih =>
    intro count h
    by_cases hc : count < target
    · have : target ≤ (count + increment) + m * increment := by push_cast at h ⊢; linarith
      simpa [runCounter, hc] using ih (count + increment) this
    · simp [runCounter, hc]

/-- C2: for every integer target `T` read from a counter element's
`data-count` attribute and every per-frame increment (any rounding of
`T / speed`, positive whenever `T` is positive), the counter animation
terminates, and on termination the displayed value is exactly `T`. -/
theorem counter_terminates_at_target (T : ℤ) (increment : ℚ)
    (h : 0 < increment ∨ T ≤ 0) :
    ∃ n : Nat, runCounter (T : ℚ) increment 0 n = some (T : ℚ) := by
  rcases h with hpos | hle
  · obtain ⟨n, hn⟩ := exists_nat_ge ((T : ℚ) / increment)
    refine ⟨n + 1, runCounter_of_reach (T : ℚ) increment n 0 ?_⟩
    rw [div_le_iff₀ hpos] at hn
    linarith
  · refine ⟨1, runCounter_of_reach (T : ℚ) increment 0 0 ?_⟩
    push_cast
    simp only [zero_mul, add_zero]
    exact_mod_cast hle

theorem counter_terminates_at_target_witness :
    ∃ n : Nat, runCounter (500 : ℚ) (500 / 200) 0 n = some (500 : ℚ) :=
  counter_terminates_at_target 500 (500 / 200) (Or.inl (by norm_num))

/-! ## Contact form (src/static/js/script.js lines 42-153)

A form is a list of fields; each field carries its current `value`, its
`required` attribute, whether it is the `input[type="email"]` control,
and its CSS class list.  `jsTrim` models `String.prototype.trim`,
`addClass`/`removeClass` model `classList.add`/`classList.remove`, and
`emailOk` models the regular expression
`/^[^\s@]+@[^\s@]+\.[^\s@]+$/.test(...)`. -/

structure Field where
  value : String
  required : Bool
  isEmail : Bool
  classes : List String
  deriving Repr, DecidableEq

def defaultField : Field := ⟨"", false, false, []⟩

def jsTrim (s : String) : String :=
  String.mk (((s.data.dropWhile Char.isWhitespace).reverse.dropWhile
    Char.isWhitespace).reverse)

def addClass (c : String) (cs : List String) : List String :=
  if c ∈ cs then cs else cs ++ [c]

def removeClass (c : String) (cs : List String) : List String :=
  cs.filter (fun d => d ≠ c)

/-- Split a character list at the first occurrence of `c`, returning
the part before and the part after it (`none` if `c` does not occur). -/
def splitAtFirst (c : Char) : List Char → Option (List Char × List Char)
  | [] => none
  | d :: rest =>
    if d = c then some ([], rest)
    else
      match splitAtFirst c rest with
      | none => none
      | some (x, r) => some (d :: x, r)

/-- `/^[^\s@]+@[^\s@]+\.[^\s@]+$/` accepts a string exactly when it is
`x ++ "@" ++ y ++ "." ++ z` with `x`, `y`, `z` nonempty and free of
whitespace and of `@` (so the string has exactly one `@`, no whitespace
anywhere, and a `.` strictly inside the part after the `@`). -/
def emailOk (s : String) : Bool :=
  match splitAtFirst '@' s.data with
  | none => false
  | some (x, r) =>
    !x.isEmpty && x.all (fun c => !c.isWhitespace) &&
    !r.isEmpty && r.all (fun c => !c.isWhitespace && c ≠ '@') &&
    ((r.drop 1).dropLast).contains '.'

/-- Body of the `requiredFields.forEach` loop of `validateForm`
(lines 101-108): the returned Bool is the contribution to `isValid`. -/
def checkRequired (f : Field) : Field × Bool :=
  if f.required then
    if jsTrim f.value = "" then
      ({ f with classes := addClass "is-invalid" f.classes }, false)
    else
      ({ f with classes := removeClass "is-invalid" f.classes }, true)
  else (f, true)

/-- The email check of `validateForm` (lines 111-118):
`form.querySelector('input[type="email"]')` finds the first email field
in document order; if its trimmed value is non-empty and fails the
pattern, `is-invalid` is added and `isValid` is cleared. -/
def checkEmailField : List Field → List Field × Bool
  | [] => ([], true)
  | f :: fs =>
    if f.isEmail then
      if jsTrim f.value ≠ "" ∧ emailOk (jsTrim f.value) = false then
        ({ f with classes := addClass "is-invalid" f.classes } :: fs, false)
      else (f :: fs, true)
    else
      let r := checkEmailField fs
      (f :: r.1, r.2)

/-- `validateForm` (lines 97-121): run the required-field loop, then the
email check, returning the final `isValid` and the updated fields.
`isValid` starts `true` and is only ever cleared, so it equals the
conjunction of the per-field results. -/
def validateForm (fields : List Field) : Bool × List Field :=
  let stepped := fields.map checkRequired
  let afterLoop := stepped.map Prod.fst
  let requiredValid := stepped.all Prod.snd
  let emailStep := checkEmailField afterLoop
  (requiredValid && emailStep.2, emailStep.1)

inductive SendOutcome where
  | success
  | failure
  deriving Repr, DecidableEq

structure FormResponse where
  alertClass : String
  message : String
  deriving Repr, DecidableEq

/-- `showFormResponse` (lines 144-153): builds the inline alert written
into the `formResponse` container. -/
def showFormResponse (ok : Bool) (message : String) : FormResponse :=
  ⟨if ok then "alert-success" else "alert-danger", message⟩

def successMessage : String :=
  "Your message has been sent successfully! We will get back to you soon."

def failureMessage : String :=
  "Sorry, there was an error sending your message. Please try again later."

/-- The submit handler installed by `initContactForm` (lines 46-89):
returns are the number of `emailjs.send` attempts made and the response
shown.  Validation failure returns before the send; otherwise exactly
one send is awaited, its success or failure (`SendOutcome`) selecting
the message passed to `showFormResponse`. -/
def handleSubmit (fields : List Field) (outcome : SendOutcome) :
    Nat × Option FormResponse :=
  if (validateForm fields).1 then
    match outcome with
    | .success => (1, some (showFormResponse true successMessage))
    | .failure => (1, some (showFormResponse false failureMessage))
  else (0, none)

/-! Helper lemmas about the form model. -/

theorem checkRequired_value (f : Field) : (checkRequired f).1.value = f.value := by
  rw [checkRequired]; split <;> [skip; rfl]; split <;> rfl

theorem checkRequired_required (f : Field) :
    (checkRequired f).1.required = f.required := by
  rw [checkRequired]; split <;> [skip; rfl]; split <;> rfl

theorem checkRequired_isEmail (f : Field) :
    (checkRequired f).1.isEmail = f.isEmail := by
  rw [checkRequired]; split <;> [skip; rfl]; split <;> rfl

theorem checkRequired_snd (f : Field) :
    (checkRequired f).2 = true ↔ (f.required = true → jsTrim f.value ≠ "") := by
  rw [checkRequired]
  split
  · next hreq =>
    split
    · next he => simp [hreq, he]
    · next he => simp [hreq, he]
  · next hreq => simp [hreq]

theorem mem_addClass_self (c : String) (cs : List String) : c ∈ addClass c cs := by
  rw [addClass]; split
  · assumption
  · simp

theorem mem_addClass_iff (c d : String) (cs : List String) :
    c ∈ addClass d cs ↔ c ∈ cs ∨ c = d := by
  rw [addClass]; split
  · next h =>
      constructor
      · exact Or.inl
      · rintro (hc | rfl)
        · exact hc
        · exact h
  · simp

theorem not_mem_removeClass_self (c : String) (cs : List String) :
    c ∉ removeClass c cs := by
  simp [removeClass]

theorem checkRequired_classes (f : Field) (hreq : f.required = true) :
    ("is-invalid" ∈ (checkRequired f).1.classes ↔ jsTrim f.value = "") := by
  rw [checkRequired, if_pos hreq]
  split
  · next he => simpa [he] using mem_addClass_self "is-invalid" f.classes
  · next he => simpa [he] using not_mem_removeClass_self "is-invalid" f.classes

/-- Index of the field `form.querySelector('input[type="email"]')`
resolves to, if any. -/
def firstEmailIdx : List Field → Option Nat
  | [] => none
  | f :: fs => if f.isEmail then some 0 else (firstEmailIdx fs).map (· + 1)

/-- The update the email check applies to the field it examines. -/
def emailAdjust (f : Field) : Field :=
  if jsTrim f.value ≠ "" ∧ emailOk (jsTrim f.value) = false then
    { f with classes := addClass "is-invalid" f.classes }
  else f

theorem checkEmailField_cons_email (f : Field) (fs : List Field)
    (hf : f.isEmail = true) :
    (checkEmailField (f :: fs)).1 = emailAdjust f :: fs := by
  rw [checkEmailField, emailAdjust]
  by_cases hb : jsTrim f.value ≠ "" ∧ emailOk (jsTrim f.value) = false
  · simp [hf, hb]
  · simp [hf, hb]

theorem checkEmailField_cons_other (f : Field) (fs : List Field)
    (hf : ¬ f.isEmail = true) :
    (checkEmailField (f :: fs)) = (f :: (checkEmailField fs).1, (checkEmailField fs).2) := by
  rw [checkEmailField]
  simp [hf]

theorem checkEmailField_length (l : List Field) :
    (checkEmailField l).1.length = l.length := by
  induction l with
  | nil => rfl
  | cons f fs ih =>
    by_cases hf : f.isEmail = true
    · rw [checkEmailField_cons_email f fs hf]; simp
    · rw [checkEmailField_cons_other f fs hf]; simpa using ih

theorem checkEmailField_getD (l : List Field) (i : Nat) :
    (checkEmailField l).1.getD i defaultField
      = if firstEmailIdx l = some i then emailAdjust (l.getD i defaultField)
        else l.getD i defaultField := by
  induction l generalizing i with
  | nil => simp [checkEmailField, firstEmailIdx]
  | cons f fs ih =>
    by_cases hf : f.isEmail = true
    · rw [checkEmailField_cons_email f fs hf]
      cases i with
      | zero => simp [firstEmailIdx, hf]
      | succ j => simp [firstEmailIdx, hf]
    · rw [checkEmailField_cons_other f fs hf]
      cases i with
      | zero =>
        have hne : firstEmailIdx (f :: fs) ≠ some 0 := by
          rw [firstEmailIdx]
          simp only [hf, if_false]
          cases firstEmailIdx fs <;> simp
        simp [hne]
      | succ j =>
        have hiff : firstEmailIdx (f :: fs) = some (j + 1)
            ↔ firstEmailIdx fs = some j := by
          rw [firstEmailIdx]
          simp only [hf, if_false]
          cases firstEmailIdx fs <;> simp
        simp only [List.getD_cons_succ]
        rw [ih j]
        by_cases hj : firstEmailIdx fs = some j
        · rw [if_pos hj, if_pos (hiff.mpr hj)]
        · rw [if_neg hj, if_neg (fun h => hj (hiff.mp h))]

theorem checkEmailField_snd (l : List Field) :
    ((checkEmailField l).2 = true ↔
      ∀ g, l.find? (fun f => f.isEmail) = some g →
        jsTrim g.value ≠ "" → emailOk (jsTrim g.value) = true) := by
  induction l with
  | nil => simp [checkEmailField]
  | cons f fs ih =>
    by_cases hf : f.isEmail = true
    · rw [List.find?_cons_of_pos _ hf, checkEmailField]
      simp only [hf, if_true]
      split
      · next hb =>
        constructor
        · intro h; exact absurd h (by simp)
        · intro h
          exact absurd (h f rfl hb.1) (by simp [hb.2])
      · next hb =>
        rw [not_and_or] at hb
        constructor
        · intro _ g hg hne
          cases hg
          rcases hb with hb | hb
          · exact absurd hne (by simpa using hb)
          · simpa using hb
        · intro _; rfl
    · rw [List.find?_cons_of_neg _ (by simpa using hf), checkEmailField]
      simpa [hf] using ih

theorem validateForm_fst_def (fields : List Field) :
    (validateForm fields).1
      = ((fields.map checkRequired).all Prod.snd
        && (checkEmailField ((fields.map checkRequired).map Prod.fst)).2) := rfl

theorem validateForm_snd_def (fields : List Field) :
    (validateForm fields).2
      = (checkEmailField ((fields.map checkRequired).map Prod.fst)).1 := rfl

theorem afterLoop_map (fields : List Field) :
    (fields.map checkRequired).map Prod.fst
      = fields.map (fun f => (checkRequired f).1) := by
  rw [List.map_map]
  rfl

theorem firstEmailIdx_afterLoop (fields : List Field) :
    firstEmailIdx (fields.map (fun f => (checkRequired f).1))
      = firstEmailIdx fields := by
  induction fields with
  | nil => rfl
  | cons f fs ih =>
    simp only [List.map_cons, firstEmailIdx, checkRequired_isEmail, ih]

theorem find?_afterLoop (fields : List Field) :
    (fields.map (fun f => (checkRequired f).1)).find? (fun f => f.isEmail)
      = (fields.find? (fun f => f.isEmail)).map (fun f => (checkRequired f).1) := by
  induction fields with
  | nil => rfl
  | cons f fs ih =>
    by_cases hf : f.isEmail = true
    · rw [List.map_cons,
        List.find?_cons_of_pos _ (by rw [checkRequired_isEmail]; exact hf),
        List.find?_cons_of_pos _ hf]
      rfl
    · rw [List.map_cons,
        List.find?_cons_of_neg _ (by rw [checkRequired_isEmail]; simpa using hf),
        List.find?_cons_of_neg _ (by simpa using hf), ih]

theorem validateForm_fst_iff (fields : List Field) :
    ((validateForm fields).1 = true ↔
      ((∀ f ∈ fields, f.required = true → jsTrim f.value ≠ "") ∧
       (∀ g, fields.find? (fun f => f.isEmail) = some g →
          jsTrim g.value ≠ "" → emailOk (jsTrim g.value) = true))) := by
  rw [validateForm_fst_def, Bool.and_eq_true, afterLoop_map, checkEmailField_snd,
    find?_afterLoop]
  constructor
  · rintro ⟨hall, hemail⟩
    constructor
    · intro f hf hreq
      have h1 := List.all_eq_true.mp hall (checkRequired f)
        (List.mem_map_of_mem _ hf)
      exact (checkRequired_snd f).mp h1 hreq
    · intro g hg hne
      have h2 := hemail ((checkRequired g).1) (by rw [hg]; rfl)
        (by rwa [checkRequired_value])
      rwa [checkRequired_value] at h2
  · rintro ⟨hreq, hemail⟩
    constructor
    · apply List.all_eq_true.mpr
      intro p hp
      rcases List.mem_map.mp hp with ⟨f, hf, rfl⟩
      exact (checkRequired_snd f).mpr (hreq f hf)
    · intro g hg hne
      rcases hmap : fields.find? (fun f => f.isEmail) with _ | g0
      · rw [hmap] at hg; cases hg
      · rw [hmap] at hg
        simp only [Option.map_some'] at hg
        cases hg
        rw [checkRequired_value] at hne ⊢
        exact hemail g0 hmap hne

theorem validateForm_snd_length (fields : List Field) :
    (validateForm fields).2.length = fields.length := by
  rw [validateForm_snd_def, checkEmailField_length]
  simp

theorem validateForm_snd_getD (fields : List Field) (i : Nat)
    (hi : i < fields.length) :
    (validateForm fields).2.getD i defaultField
      = if firstEmailIdx fields = some i
        then emailAdjust ((checkRequired (fields.getD i defaultField)).1)
        else (checkRequired (fields.getD i defaultField)).1 := by
  rw [validateForm_snd_def, afterLoop_map, checkEmailField_getD,
    firstEmailIdx_afterLoop]
  have hmap : (fields.map (fun f => (checkRequired f).1)).getD i defaultField
      = (checkRequired (fields.getD i defaultField)).1 := by
    rw [List.getD_eq_getElem _ _ (by simpa using hi),
      List.getD_eq_getElem _ _ hi, List.getElem_map]
  rw [hmap]

/-- C3: whenever some required field of the submitted form has an empty
value, `validateForm` returns `false` and the submit handler returns
before reaching the send call, so `emailjs.send` is never invoked
(zero send attempts). -/
theorem empty_required_field_blocks_send (fields : List Field)
    (outcome : SendOutcome) (f : Field) (hf : f ∈ fields)
    (hreq : f.required = true) (hempty : f.value = "") :
    (validateForm fields).1 = false ∧ (handleSubmit fields outcome).1 = 0 := by
  have hfalse : (validateForm fields).1 = false := by
    apply Bool.eq_false_iff.mpr
    intro htrue
    apply ((validateForm_fst_iff fields).mp htrue).1 f hf hreq
    rw [hempty]
    rfl
  exact ⟨hfalse, by simp [handleSubmit, hfalse]⟩

theorem empty_required_field_blocks_send_witness :
    (validateForm [Field.mk "" true false []]).1 = false ∧
    (handleSubmit [Field.mk "" true false []] SendOutcome.success).1 = 0 :=
  empty_required_field_blocks_send [Field.mk "" true false []]
    SendOutcome.success (Field.mk "" true false []) (by decide) rfl rfl

/-- C5 counterexample: the claim fails on two points.  First, a required
email field whose non-empty value fails the pattern ends up *with* the
`is-invalid` class even though its value is non-empty, because the email
check re-adds the class after the required-field loop removed it.
Second, `validateForm` only inspects the *first* `input[type="email"]`:
with a second, non-empty, non-matching email field present it still
returns `true`. -/
theorem validateForm_claim_counterexample :
    (¬ ∀ g ∈ (validateForm [Field.mk "abc" true true []]).2,
        g.required = true → jsTrim g.value ≠ "" → "is-invalid" ∉ g.classes) ∧
    ((validateForm [Field.mk "" false true [], Field.mk "bad" false true []]).1
        = true ∧
      ∃ f ∈ ([Field.mk "" false true [], Field.mk "bad" false true []] :
          List Field),
        f.isEmail = true ∧ jsTrim f.value ≠ "" ∧
        emailOk (jsTrim f.value) = false) := by
  decide

/-- C5 (amended): `validateForm` returns `true` iff every required field
has a non-empty trimmed value and, when the first email-typed field has
a non-empty trimmed value, that value matches the simple email pattern.
For every required field the final class list contains `is-invalid` iff
its trimmed value is empty — except that the first email-typed field
also carries `is-invalid` when its non-empty trimmed value fails the
pattern. -/
theorem validateForm_amended_spec (fields : List Field) (i : Nat)
    (hi : i < fields.length)
    (hreq : (fields.getD i defaultField).required = true) :
    ((validateForm fields).1 = true ↔
      ((∀ f ∈ fields, f.required = true → jsTrim f.value ≠ "") ∧
       (∀ g, fields.find? (fun f => f.isEmail) = some g →
          jsTrim g.value ≠ "" → emailOk (jsTrim g.value) = true))) ∧
    ("is-invalid" ∈ ((validateForm fields).2.getD i defaultField).classes ↔
      (jsTrim (fields.getD i defaultField).value = "" ∨
       (firstEmailIdx fields = some i ∧
        jsTrim (fields.getD i defaultField).value ≠ "" ∧
        emailOk (jsTrim (fields.getD i defaultField).value) = false))) := by
  refine ⟨validateForm_fst_iff fields, ?_⟩
  rw [validateForm_snd_getD fields i hi]
  have hv := checkRequired_value (fields.getD i defaultField)
  have hcls := checkRequired_classes (fields.getD i defaultField) hreq
  by_cases hfe : firstEmailIdx fields = some i
  · rw [if_pos hfe, emailAdjust, hv]
    by_cases hb : jsTrim (fields.getD i defaultField).value ≠ ""
        ∧ emailOk (jsTrim (fields.getD i defaultField).value) = false
    · rw [if_pos hb]
      constructor
      · intro _
        exact Or.inr ⟨hfe, hb.1, hb.2⟩
      · intro _
        exact mem_addClass_self "is-invalid" _
    · rw [if_neg hb, hcls]
      constructor
      · exact Or.inl
      · rintro (h | ⟨_, hb1, hb2⟩)
        · exact h
        · exact absurd ⟨hb1, hb2⟩ hb
  · rw [if_neg hfe, hcls]
    constructor
    · exact Or.inl
    · rintro (h | ⟨hfe2, _⟩)
      · exact h
      · exact absurd hfe2 hfe

theorem validateForm_amended_spec_witness :
    (0 < ([Field.mk "" true false []] : List Field).length) ∧
    (((validateForm [Field.mk "" true false []]).1 = true ↔
      ((∀ f ∈ ([Field.mk "" true false []] : List Field),
          f.required = true → jsTrim f.value ≠ "") ∧
       (∀ g, ([Field.mk "" true false []] : List Field).find?
            (fun f => f.isEmail) = some g →
          jsTrim g.value ≠ "" → emailOk (jsTrim g.value) = true))) ∧
     ("is-invalid" ∈
        ((validateForm [Field.mk "" true false []]).2.getD 0
          defaultField).classes ↔
      (jsTrim (([Field.mk "" true false []] : List Field).getD 0
          defaultField).value = "" ∨
       (firstEmailIdx [Field.mk "" true false []] = some 0 ∧
        jsTrim (([Field.mk "" true false []] : List Field).getD 0
          defaultField).value ≠ "" ∧
        emailOk (jsTrim (([Field.mk "" true false []] : List Field).getD 0
          defaultField).value) = false)))) :=
  ⟨by decide, validateForm_amended_spec [Field.mk "" true false []] 0
    (by decide) (by decide)⟩

/-- C7: every submission that passes validation makes exactly one send
attempt regardless of the outcome (no automatic retry), and a failed
send surfaces the generic inline failure alert via `showFormResponse`. -/
theorem validated_submit_single_attempt (fields : List Field)
    (outcome : SendOutcome) (hvalid : (validateForm fields).1 = true) :
    (handleSubmit fields outcome).1 = 1 ∧
    (outcome = SendOutcome.failure →
      (handleSubmit fields outcome).2
        = some (showFormResponse false failureMessage)) := by
  cases outcome <;> simp [handleSubmit, hvalid]

theorem validated_submit_single_attempt_witness :
    (validateForm ([] : List Field)).1 = true ∧
    ((handleSubmit ([] : List Field) SendOutcome.failure).1 = 1 ∧
     (SendOutcome.failure = SendOutcome.failure →
      (handleSubmit ([] : List Field) SendOutcome.failure).2
        = some (showFormResponse false failureMessage))) :=
  ⟨rfl, validated_submit_single_attempt [] SendOutcome.failure rfl⟩

theorem jsTrim_eq_empty_of_whitespace (s : String)
    (h : ∀ c ∈ s.data, c.isWhitespace = true) : jsTrim s = "" := by
  have h1 : s.data.dropWhile Char.isWhitespace = [] :=
    List.dropWhile_eq_nil_iff.mpr h
  rw [jsTrim, h1]
  rfl

/-- C9: a required field whose value consists only of whitespace is
treated as empty by `validateForm`: the field gets the `is-invalid`
class, validation returns `false`, and the send call is not made. -/
theorem whitespace_required_field_treated_empty (fields : List Field)
    (outcome : SendOutcome) (i : Nat) (hi : i < fields.length)
    (hreq : (fields.getD i defaultField).required = true)
    (hws : ∀ c ∈ (fields.getD i defaultField).value.data,
      c.isWhitespace = true) :
    (validateForm fields).1 = false ∧
    "is-invalid" ∈ ((validateForm fields).2.getD i defaultField).classes ∧
    (handleSubmit fields outcome).1 = 0 := by
  have hempty : jsTrim (fields.getD i defaultField).value = "" :=
    jsTrim_eq_empty_of_whitespace _ hws
  have hmem : fields.getD i defaultField ∈ fields := by
    rw [List.getD_eq_getElem _ _ hi]
    exact List.getElem_mem hi
  have hfalse : (validateForm fields).1 = false := by
    apply Bool.eq_false_iff.mpr
    intro htrue
    exact ((validateForm_fst_iff fields).mp htrue).1 _ hmem hreq hempty
  refine ⟨hfalse, ?_, by simp [handleSubmit, hfalse]⟩
  rw [validateForm_snd_getD fields i hi]
  have hcls : "is-invalid" ∈ (checkRequired (fields.getD i defaultField)).1.classes :=
    (checkRequired_classes _ hreq).mpr hempty
  by_cases hfe : firstEmailIdx fields = some i
  · rw [if_pos hfe, emailAdjust]
    split
    · exact mem_addClass_self "is-invalid" _
    · exact hcls
  · rw [if_neg hfe]
    exact hcls

theorem whitespace_required_field_treated_empty_witness :
    (validateForm [Field.mk " " true false []]).1 = false ∧
    "is-invalid" ∈
      ((validateForm [Field.mk " " true false []]).2.getD 0
        defaultField).classes ∧
    (handleSubmit [Field.mk " " true false []] SendOutcome.success).1 = 0 :=
  whitespace_required_field_treated_empty [Field.mk " " true false []]
    SendOutcome.success 0 (by decide) (by decide) (by decide)

/-! ## Feature initialisation and missing DOM elements

`Dom` abstracts the element lookups the two scripts perform at
initialisation time: `byId s` is whether `document.getElementById(s)`
is non-null, `bySel s` whether `document.querySelector(s)` is non-null,
`counterCount` the size of `document.querySelectorAll('.counter')`, and
`bootstrapDefined` whether the Bootstrap global exists.

Every initialiser of src/static/js/script.js guards its lookups with an
early `return`, modelled as `Except.ok` carrying whether the feature
was wired.  The top level of src/script.js, by contrast, dereferences
`menuToggle` (line 5) and `closeModal` (line 55) without a null check;
on a page missing either element that statement throws a `TypeError`,
modelled as `Except.error`, which aborts the rest of the script. -/

structure Dom where
  byId : String → Bool
  bySel : String → Bool
  counterCount : Nat
  bootstrapDefined : Bool

def initContactFormModel (d : Dom) : Except String Bool :=
  if d.byId "contactForm" then .ok true else .ok false

def initCountersModel (d : Dom) : Except String Bool :=
  if d.counterCount = 0 then .ok false else .ok true

def initBackToTopModel (d : Dom) : Except String Bool :=
  if d.bySel ".back-to-top" then .ok true else .ok false

def initStickyHeaderModel (d : Dom) : Except String Bool :=
  if d.bySel ".header" then .ok true else .ok false

def initMobileMenuModel (d : Dom) : Except String Bool :=
  if d.bySel ".navbar-toggler" && d.byId "navbarNav" then .ok true
  else .ok false

def initTestimonialCarouselModel (d : Dom) : Except String Bool :=
  if d.byId "testimonialCarousel" && d.bootstrapDefined then .ok true
  else .ok false

/-- Top level of src/script.js: `menuToggle.addEventListener` (line 5)
and `closeModal.addEventListener` (line 55) are the unguarded
dereferences; everything between them (`forEach` over possibly empty
node lists, the guarded `contactForm` block) cannot throw. -/
def runLegacyScript (d : Dom) : Except String Unit :=
  if !d.byId "menuToggle" then
    .error "TypeError: menuToggle is null"
  else if !d.bySel ".close-modal" then
    .error "TypeError: closeModal is null"
  else .ok ()

/-- C8 counterexample: on a page with none of the expected elements the
top level of src/script.js does not silently skip the mobile-menu and
gallery-modal wiring — it throws, aborting the script. -/
theorem missing_dom_counterexample :
    runLegacyScript (Dom.mk (fun _ => false) (fun _ => false) 0 false)
      ≠ Except.ok () := by
  simp [runLegacyScript]

/-- C8 (amended): every feature initialiser of src/static/js/script.js
(contact form, counters, back-to-top, sticky header, mobile menu,
carousel) silently skips its feature when a required DOM element is
missing and never raises an error; the top level of src/script.js,
however, completes without error exactly when both `menuToggle` and
`.close-modal` are present, and otherwise throws a `TypeError` that is
fatal to the rest of that script. -/
theorem missing_dom_skips_guarded_features (d : Dom) :
    initContactFormModel d = .ok (d.byId "contactForm") ∧
    initCountersModel d = .ok (!(d.counterCount = 0 : Bool)) ∧
    initBackToTopModel d = .ok (d.bySel ".back-to-top") ∧
    initStickyHeaderModel d = .ok (d.bySel ".header") ∧
    initMobileMenuModel d = .ok (d.bySel ".navbar-toggler" && d.byId "navbarNav") ∧
    initTestimonialCarouselModel d
      = .ok (d.byId "testimonialCarousel" && d.bootstrapDefined) ∧
    (runLegacyScript d = Except.ok () ↔
      (d.byId "menuToggle" = true ∧ d.bySel ".close-modal" = true)) := by
  refine ⟨?_, ?_, ?_, ?_, ?_, ?_, ?_⟩
  · rw [initContactFormModel]
    cases h : d.byId "contactForm" <;> simp [h]
  · rw [initCountersModel]
    by_cases h : d.counterCount = 0 <;> simp [h]
  · rw [initBackToTopModel]
    cases h : d.bySel ".back-to-top" <;> simp [h]
  · rw [initStickyHeaderModel]
    cases h : d.bySel ".header" <;> simp [h]
  · rw [initMobileMenuModel]
    cases h : (d.bySel ".navbar-toggler" && d.byId "navbarNav") <;> simp [h]
  · rw [initTestimonialCarouselModel]
    cases h : (d.byId "testimonialCarousel" && d.bootstrapDefined) <;> simp [h]
  · rw [runLegacyScript]
    cases h1 : d.byId "menuToggle" <;> cases h2 : d.bySel ".close-modal" <;>
      simp [h1, h2]

/-! ## Anchor click handler (src/script.js lines 14-40)

The handler attached to every `a[href^="#"]`: it always calls
`e.preventDefault()`, removes `show` from the navigation menu if
present, and for `href === '#'` returns before any scrolling or any
change to the nav links' `active` classes.  `Elem.offsetTop` is the
scroll target geometry; `activeHrefs` is the set of nav links currently
carrying the `active` class. -/

structure Elem where
  offsetTop : Int
  deriving Repr, DecidableEq

structure ClickOutcome where
  defaultPrevented : Bool
  navShow : Bool
  scrolledTo : Option Int
  activeHrefs : List String
  deriving Repr, DecidableEq

def anchorClickHandler (query : String → Option Elem) (href : String)
    (navShow : Bool) (activeHrefs : List String) (selfHref : String) :
    ClickOutcome :=
  let navShow1 := if navShow then false else navShow
  if href = "#" then
    ⟨true, navShow1, none, activeHrefs⟩
  else
    match query href with
    | none => ⟨true, navShow1, none, activeHrefs⟩
    | some el => ⟨true, navShow1, some (el.offsetTop - 90), [selfHref]⟩

/-- C10: a click on an anchor whose `href` is exactly `#` prevents the
default navigation and leaves the menu closed (removing `show` if it
was present), but performs no scrolling and leaves the nav links'
`active` classes unchanged. -/
theorem hash_anchor_click_inert (query : String → Option Elem)
    (navShow : Bool) (activeHrefs : List String) (selfHref : String) :
    anchorClickHandler query "#" navShow activeHrefs selfHref
      = ⟨true, false, none, activeHrefs⟩ := by
  cases navShow <;> rfl

end Weather
